import Mathlib

/-!
Verification of the `aws_acm` module (`lib/ansible/modules/cloud/amazon/aws_acm.py`).

PEM strings are modelled as `List Char`; absent module parameters and absent
dictionary keys are `none`.  The module's interaction with the ACM service is
modelled by an environment (`Remote`) describing what the service returns and a
trace of the ACM calls the module issues.
-/

namespace AwsAcm

/-! ### PEM normalization: `standardize_pem` and `pem_compare` -/

/-- The three characters removed by the replacement loop
`for c in [' ','\n','\t']: pem = pem.replace(c,'')`. -/
def isWTN (c : Char) : Bool := c = ' ' || c = '\n' || c = '\t'

/-- `pem.replace(c, '')`: remove every occurrence of the character `c`. -/
def removeChar (c : Char) (l : List Char) : List Char := l.filter (fun d => d ≠ c)

/-- `'--' in pem`: the string contains two consecutive dashes. -/
def hasDoubleDash : List Char → Bool
  | [] => false
  | [_] => false
  | c :: d :: rest => (c = '-' && d = '-') || hasDoubleDash (d :: rest)

/-- `pem.replace('--','-')`: replace non-overlapping occurrences of two dashes
by one dash, scanning left to right. -/
def replaceDoubleDash : List Char → List Char
  | [] => []
  | [c] => [c]
  | c :: d :: rest =>
    if c = '-' ∧ d = '-' then '-' :: replaceDoubleDash rest
    else c :: replaceDoubleDash (d :: rest)

/-- One fuelled unfolding of `while '--' in pem: pem = pem.replace('--','-')`.
Each iteration of the source loop strictly shrinks the string, so any fuel at
least the length of the input computes the loop's exit value
(`collapseLoopFuel_eq` below proves fuel-independence). -/
def collapseLoopFuel : Nat → List Char → List Char
  | 0, l => l
  | fuel + 1, l => if hasDoubleDash l then collapseLoopFuel fuel (replaceDoubleDash l) else l

/-- The dash-collapsing `while` loop of `standardize_pem`. -/
def collapseLoop (l : List Char) : List Char := collapseLoopFuel l.length l

/-- The characters Python's `str.strip()` removes: exactly those for which
`str.isspace()` holds. -/
def pyIsSpace (c : Char) : Bool :=
  c ∈ [' ', '\t', '\n', '\r', '\x0b', '\x0c', '\x1c', '\x1d', '\x1e', '\x1f',
       '\x85', '\xa0', '\u1680', '\u2000', '\u2001', '\u2002', '\u2003', '\u2004',
       '\u2005', '\u2006', '\u2007', '\u2008', '\u2009', '\u200a', '\u2028',
       '\u2029', '\u202f', '\u205f', '\u3000']

/-- Python's `str.strip()`: drop leading and trailing whitespace. -/
def pyStrip (l : List Char) : List Char :=
  ((l.dropWhile pyIsSpace).reverse.dropWhile pyIsSpace).reverse

/-- `standardize_pem` (aws_acm.py lines 162-175): `None` becomes the empty
string; spaces, newlines and tabs are removed in turn; runs of dashes are
collapsed by the `while` loop; then `.lower().strip()`.  Per-character
lower-casing is `Char.toLower`, which agrees with `str.lower` on the ASCII
letters the normalizer is concerned with. -/
def standardize_pem : Option (List Char) → List Char
  | none => []
  | some pem =>
    pyStrip ((collapseLoop (removeChar '\t' (removeChar '\n' (removeChar ' ' pem)))).map
      Char.toLower)

/-- `pem_compare` (aws_acm.py lines 178-179). -/
def pem_compare (a b : Option (List Char)) : Bool :=
  decide (standardize_pem a = standardize_pem b)

/-! ### Reconciler data model -/

/-- The `state` module parameter (restricted by `choices=['present','absent']`). -/
inductive ModuleState | present | absent
deriving DecidableEq, Repr

/-- The module parameters of `aws_acm` (argument_spec, lines 183-191).
`none` is an unsupplied parameter (Python `None`). -/
structure Params where
  certificate : Option (List Char)
  certificate_arn : Option (List Char)
  certificate_chain : Option (List Char)
  domain_name : Option (List Char)
  name_tag : Option (List Char)
  private_key : Option (List Char)
  state : ModuleState
deriving DecidableEq, Repr

/-- Python truthiness of an optional string parameter: `None` and the empty
string are falsy. -/
def truthy : Option (List Char) → Bool
  | none => false
  | some s => !s.isEmpty

/-- A certificate record as returned by `ACMServiceManager.get_certificates`.
`certificate` and `tags` are `Option` because the reconciler defensively checks
for the presence of those keys; `certificate_chain` and `certificate_arn` are
accessed unconditionally. -/
structure CertRecord where
  certificate_arn : List Char
  certificate : Option (List Char)
  certificate_chain : List Char
  tags : Option (List (List Char × List Char))
deriving DecidableEq, Repr

/-- Dictionary lookup in a tag mapping. -/
def tagLookup (k : List Char) : List (List Char × List Char) → Option (List Char)
  | [] => none
  | (k', v) :: rest => if k' = k then some v else tagLookup k rest

/-- The reserved tag key `"Name"`. -/
def nameKey : List Char := ['N', 'a', 'm', 'e']

/-- The behavior of the remote ACM service during one invocation:
the certificate list `get_certificates` returns, the domain
`get_domain_of_cert` resolves for an ARN, and the ARN `import_certificate`
returns when passed a given (optional) pinned ARN. -/
structure Remote where
  certificates : List CertRecord
  domainOf : List Char → List Char
  importArn : Option (List Char) → List Char

/-- One call made through the `ACMServiceManager` to the remote store. -/
inductive ACMCall
  | getCertificates (domain_name : Option (List Char)) (arn : Option (List Char))
      (only_tags : Option (List (List Char × List Char)))
  | getDomainOfCert (arn : List Char)
  | importCertificate (certificate : Option (List Char)) (private_key : Option (List Char))
      (certificate_chain : Option (List Char)) (arn : Option (List Char))
      (tags : Option (List (List Char × List Char)))
  | deleteCertificate (arn : List Char)
deriving DecidableEq, Repr

/-- Whether a call mutates the remote store. -/
def isMutating : ACMCall → Bool
  | ACMCall.importCertificate _ _ _ _ _ => true
  | ACMCall.deleteCertificate _ => true
  | _ => false

/-- How the invocation terminates: `fail_json` (with the records it reports,
if any), `exit_json` for `state=present`, or `exit_json` for `state=absent`. -/
inductive Outcome
  | failJson (msg : String) (reported : List CertRecord)
  | exitPresent (domain_name : List Char) (arn : List Char) (changed : Bool)
  | exitAbsent (arns : List (List Char)) (changed : Bool)
deriving DecidableEq, Repr

/-- `sum([(module.params[a] != None) for a in absent_args])` (line 209):
counts parameters that are non-`None`, not parameters that are truthy. -/
def absent_selector_count (p : Params) : Nat :=
  (if p.certificate_arn.isSome then 1 else 0) +
  (if p.domain_name.isSome then 1 else 0) +
  (if p.name_tag.isSome then 1 else 0)

/-- The argument checks of `main` (lines 196-212).  Returns the failure, if
any; the checks run before any remote call. -/
def checkArgs (p : Params) : Option Outcome :=
  match p.state with
  | ModuleState.present =>
    if ¬ truthy p.certificate then
      some (Outcome.failJson "Parameter certificate must be specified if state is present" [])
    else if truthy p.certificate_arn then
      some (Outcome.failJson "Parameter certificate_arn is only valid if state is absent" [])
    else if ¬ truthy p.name_tag then
      some (Outcome.failJson "Parameter name_tag must be specified if state is present" [])
    else if ¬ truthy p.private_key then
      some (Outcome.failJson "Parameter private_key must be specified if state is present" [])
    else none
  | ModuleState.absent =>
    if absent_selector_count p ≠ 1 then
      some (Outcome.failJson
        "If state is absent then exactly one of name_tag, certificate_arn or domain_name must be specified" [])
    else none

/-- The `Name` tag filter built at lines 214-217: present only when `name_tag`
is truthy. -/
def mkTags (p : Params) : Option (List (List Char × List Char)) :=
  if truthy p.name_tag then some [(nameKey, p.name_tag.getD [])] else none

/-- `main` (aws_acm.py lines 182-294), given the module parameters, the check
mode flag (declared supported at line 192 and never consulted afterwards), and
the remote service behavior.  Returns the terminal outcome together with the
list of ACM calls issued, in order. -/
def aws_acm_main (p : Params) (check_mode : Bool) (r : Remote) : Outcome × List ACMCall :=
  match checkArgs p with
  | some failure => (failure, [])
  | none =>
    let tags := mkTags p
    let getCall := ACMCall.getCertificates p.domain_name p.certificate_arn tags
    match p.state with
    | ModuleState.present =>
      match r.certificates with
      | old_cert :: second :: rest =>
        (Outcome.failJson "More than one certificate with this Name tag exists in ACM in this region"
          (old_cert :: second :: rest), [getCall])
      | [old_cert] =>
        match old_cert.tags with
        | none =>
          (Outcome.failJson "Internal error, unsure which certificate to update" [old_cert],
           [getCall])
        | some t =>
          match tagLookup nameKey t with
          | none =>
            (Outcome.failJson "Internal error, unsure which certificate to update" [old_cert],
             [getCall])
          | some nv =>
            if some nv ≠ p.name_tag then
              (Outcome.failJson "Internal error, unsure which certificate to update" [old_cert],
               [getCall])
            else
              match old_cert.certificate with
              | none =>
                (Outcome.failJson "Internal error, unsure what the existing cert in ACM is"
                  [old_cert], [getCall])
              | some old_body =>
                let same := pem_compare (some old_body) p.certificate &&
                  (if truthy p.certificate_chain then
                    pem_compare (some old_cert.certificate_chain) p.certificate_chain
                  else
                    pem_compare (some old_cert.certificate_chain) p.certificate)
                if same then
                  (Outcome.exitPresent (r.domainOf old_cert.certificate_arn)
                    old_cert.certificate_arn false,
                   [getCall, ACMCall.getDomainOfCert old_cert.certificate_arn])
                else
                  let arn := r.importArn (some old_cert.certificate_arn)
                  (Outcome.exitPresent (r.domainOf arn) arn true,
                   [getCall,
                    ACMCall.importCertificate p.certificate p.private_key p.certificate_chain
                      (some old_cert.certificate_arn) tags,
                    ACMCall.getDomainOfCert arn])
      | [] =>
        let arn := r.importArn none
        (Outcome.exitPresent (r.domainOf arn) arn true,
         [getCall,
          ACMCall.importCertificate p.certificate p.private_key p.certificate_chain none tags,
          ACMCall.getDomainOfCert arn])
    | ModuleState.absent =>
      (Outcome.exitAbsent (r.certificates.map (fun c => c.certificate_arn))
        (decide (0 < r.certificates.length)),
       getCall :: r.certificates.map (fun c => ACMCall.deleteCertificate c.certificate_arn))

/-- `supports_check_mode` as declared when the module object is built
(line 192). -/
def supports_check_mode : Bool := true

/-! ### Claim-side definitions -/

/-- The claimed dash normalization: every maximal run of two or more
consecutive dashes becomes a single dash (the first `k - 1` dashes of a run of
`k` are dropped). -/
def collapseDashes : List Char → List Char
  | [] => []
  | [c] => [c]
  | c :: d :: rest =>
    if c = '-' ∧ d = '-' then collapseDashes (d :: rest)
    else c :: collapseDashes (d :: rest)

/-- Removal of all space, newline and tab characters at once. -/
def removeWTN (l : List Char) : List Char := l.filter (fun c => !isWTN c)

/-- The normal form the claim describes for `standardize_pem`: space, tab and
newline characters removed, maximal dash runs collapsed to one dash, letters
lower-cased -- and nothing else. -/
def claimed_normal_form (l : List Char) : List Char :=
  (collapseDashes (removeWTN l)).map Char.toLower

/-- Follows the spec's words (section 4.3): the effective chain comparison.
If `certificate_chain` was supplied in the desired state, compare it against
the record's stored chain; otherwise compare the record's stored chain against
the desired `certificate` body itself. -/
def spec_effective_chain_compare (stored_chain : List Char) (p : Params) : Bool :=
  if truthy p.certificate_chain then
    pem_compare (some stored_chain) p.certificate_chain
  else
    pem_compare (some stored_chain) p.certificate

/-- `Reformat x y` holds when `y` is obtained from `x` by a transformation
that only inserts or deletes whitespace characters (those the normalizer
strips), changes the case of letters, or changes the length of (nonempty) dash
runs -- and never alters other payload characters. -/
inductive Reformat : List Char → List Char → Prop
  | nil : Reformat [] []
  | keep (c : Char) {xs ys : List Char} :
      Reformat xs ys → Reformat (c :: xs) (c :: ys)
  | caseChange (c d : Char) (hc : c.isAlpha) (hd : d.isAlpha) (h : c.toLower = d.toLower)
      {xs ys : List Char} : Reformat xs ys → Reformat (c :: xs) (d :: ys)
  | wsDelete (c : Char) (h : isWTN c) {xs ys : List Char} :
      Reformat xs ys → Reformat (c :: xs) ys
  | wsInsert (c : Char) (h : isWTN c) {xs ys : List Char} :
      Reformat xs ys → Reformat xs (c :: ys)
  | dashRun (k m : Nat) (hk : 0 < k) (hm : 0 < m) {xs ys : List Char} :
      Reformat xs ys →
      Reformat (List.replicate k '-' ++ xs) (List.replicate m '-' ++ ys)

/-- Prepend a dash to an already dash-collapsed list: a no-op when the list
already starts with a dash. -/
def pushDash (l : List Char) : List Char :=
  if l.head? = some '-' then l else '-' :: l

/-! ### Concrete sample inputs, used to instantiate the theorems -/

/-- A tag mapping carrying `Name = "n"`. -/
def sampleTags : List (List Char × List Char) := [(nameKey, ['n'])]

/-- A well-formed remote record named `n` with body and chain `x`. -/
def sampleOld : CertRecord := ⟨['a'], some ['x'], ['x'], some sampleTags⟩

/-- A remote record missing its tags entirely. -/
def sampleBadOld : CertRecord := ⟨['b'], some ['x'], ['x'], none⟩

/-- A remote service holding exactly `sampleOld`. -/
def sampleRemote : Remote := ⟨[sampleOld], fun _ => ['d'], fun _ => ['i']⟩

/-- A remote service holding two records. -/
def sampleRemote2 : Remote := ⟨[sampleOld, sampleBadOld], fun _ => ['d'], fun _ => ['i']⟩

/-- A remote service holding `sampleBadOld` only. -/
def sampleBadRemote : Remote := ⟨[sampleBadOld], fun _ => ['d'], fun _ => ['i']⟩

/-- A remote service holding nothing. -/
def sampleEmptyRemote : Remote := ⟨[], fun _ => ['d'], fun _ => ['i']⟩

/-- Valid `state=present` parameters matching `sampleOld` (no chain supplied). -/
def samplePresentParams : Params :=
  ⟨some ['x'], none, none, none, some ['n'], some ['k'], ModuleState.present⟩

/-- Valid `state=absent` parameters selecting by `name_tag`. -/
def sampleAbsentParams : Params :=
  ⟨none, none, none, none, some ['n'], none, ModuleState.absent⟩

/-- Invalid `state=absent` parameters: no selector at all. -/
def sampleNoSelectorParams : Params :=
  ⟨none, none, none, none, none, none, ModuleState.absent⟩

/-- The `state=absent` parameters of the empty-`name_tag` corner case: the
only selector that is non-`None` is `name_tag`, and it is the empty string. -/
def emptyNameTagParams : Params :=
  ⟨none, none, none, none, some [], none, ModuleState.absent⟩

/-! ### Lemmas: the dash-collapsing loop computes `collapseDashes` -/

theorem replaceDoubleDash_cons (a : Char) (l : List Char) :
    ∃ t, replaceDoubleDash (a :: l) = a :: t := by
  match l with
  | [] => exact ⟨[], rfl⟩
  | b :: rest =>
    by_cases h : a = '-' ∧ b = '-'
    · rw [replaceDoubleDash, if_pos h]
      exact ⟨replaceDoubleDash rest, by rw [h.1]⟩
    · rw [replaceDoubleDash, if_neg h]
      exact ⟨replaceDoubleDash (b :: rest), rfl⟩

theorem replaceDoubleDash_length_le (l : List Char) :
    (replaceDoubleDash l).length ≤ l.length := by
  induction l using replaceDoubleDash.induct with
  | case1 => simp [replaceDoubleDash]
  | case2 c => simp [replaceDoubleDash]
  | case3 c d rest h ih =>
    rw [replaceDoubleDash, if_pos h]
    simp only [List.length_cons]
    omega
  | case4 c d rest h ih =>
    rw [replaceDoubleDash, if_neg h]
    simp only [List.length_cons] at *
    omega

theorem replaceDoubleDash_length_lt (l : List Char) :
    hasDoubleDash l = true → (replaceDoubleDash l).length < l.length := by
  induction l using replaceDoubleDash.induct with
  | case1 => intro h; simp [hasDoubleDash] at h
  | case2 c => intro h; simp [hasDoubleDash] at h
  | case3 c d rest h ih =>
    intro _
    rw [replaceDoubleDash, if_pos h]
    have := replaceDoubleDash_length_le rest
    simp only [List.length_cons]
    omega
  | case4 c d rest h ih =>
    intro hdd
    rw [replaceDoubleDash, if_neg h]
    rw [hasDoubleDash] at hdd
    have hrec : hasDoubleDash (d :: rest) = true := by
      rcases Bool.or_eq_true_iff.mp hdd with h1 | h1
      · exact absurd ⟨of_decide_eq_true (Bool.and_eq_true_iff.mp h1).1,
          of_decide_eq_true (Bool.and_eq_true_iff.mp h1).2⟩ h
      · exact h1
    have := ih hrec
    simp only [List.length_cons] at *
    omega

theorem collapseDashes_of_no_double (l : List Char) :
    hasDoubleDash l = false → collapseDashes l = l := by
  induction l using collapseDashes.induct with
  | case1 => intro _; rfl
  | case2 c => intro _; rfl
  | case3 c d rest h ih =>
    intro hdd
    rw [hasDoubleDash] at hdd
    rcases Bool.or_eq_false_iff.mp hdd with ⟨h1, _⟩
    exact absurd (by rw [h.1, h.2]; simp : (decide (c = '-') && decide (d = '-')) = true)
      (by rw [h1]; simp)
  | case4 c d rest h ih =>
    intro hdd
    rw [hasDoubleDash] at hdd
    rcases Bool.or_eq_false_iff.mp hdd with ⟨_, h2⟩
    rw [collapseDashes, if_neg h, ih h2]

theorem collapseDashes_replaceDoubleDash (l : List Char) :
    collapseDashes (replaceDoubleDash l) = collapseDashes l := by
  induction l using replaceDoubleDash.induct with
  | case1 => rfl
  | case2 c => rfl
  | case3 c d rest h ih =>
    obtain ⟨hc, hd⟩ := h
    subst hc; subst hd
    rw [replaceDoubleDash, if_pos ⟨rfl, rfl⟩]
    match rest with
    | [] => rfl
    | e :: rest' =>
      by_cases he : e = '-'
      · subst he
        obtain ⟨t, ht⟩ := replaceDoubleDash_cons '-' rest'
        rw [ht]
        show collapseDashes ('-' :: '-' :: t) = collapseDashes ('-' :: '-' :: '-' :: rest')
        rw [collapseDashes, if_pos ⟨rfl, rfl⟩]
        rw [show collapseDashes ('-' :: '-' :: '-' :: rest')
              = collapseDashes ('-' :: '-' :: rest') from by
          rw [collapseDashes, if_pos ⟨rfl, rfl⟩]]
        rw [← ht]
        exact ih
      · obtain ⟨t, ht⟩ := replaceDoubleDash_cons e rest'
        rw [ht]
        show collapseDashes ('-' :: e :: t) = collapseDashes ('-' :: '-' :: e :: rest')
        rw [collapseDashes, if_neg (fun hp => he hp.2)]
        rw [show collapseDashes ('-' :: '-' :: e :: rest')
              = collapseDashes ('-' :: e :: rest') from by
          rw [collapseDashes, if_pos ⟨rfl, rfl⟩]]
        rw [show collapseDashes ('-' :: e :: rest') = '-' :: collapseDashes (e :: rest') from by
          rw [collapseDashes, if_neg (fun hp => he hp.2)]]
        rw [← ht]
        rw [ht, ← ht] at ih
        rw [ih]
  | case4 c d rest h ih =>
    rw [replaceDoubleDash, if_neg h]
    obtain ⟨t, ht⟩ := replaceDoubleDash_cons d rest
    rw [ht]
    show collapseDashes (c :: d :: t) = collapseDashes (c :: d :: rest)
    rw [collapseDashes, if_neg h]
    rw [show collapseDashes (c :: d :: rest) = c :: collapseDashes (d :: rest) from by
      rw [collapseDashes, if_neg h]]
    rw [← ht, ih]

theorem collapseLoopFuel_eq (fuel : Nat) (l : List Char) (h : l.length ≤ fuel) :
    collapseLoopFuel fuel l = collapseDashes l := by
  induction fuel generalizing l with
  | zero =>
    have hl : l = [] := List.eq_nil_of_length_eq_zero (Nat.le_zero.mp h)
    subst hl; rfl
  | succ fuel ih =>
    rw [collapseLoopFuel]
    by_cases hd : hasDoubleDash l = true
    · rw [if_pos hd]
      have hlt := replaceDoubleDash_length_lt l hd
      rw [ih _ (by omega)]
      exact collapseDashes_replaceDoubleDash l
    · rw [if_neg hd]
      exact (collapseDashes_of_no_double l (Bool.not_eq_true _ ▸ Bool.of_not_eq_true hd)).symm

theorem collapseLoop_eq (l : List Char) : collapseLoop l = collapseDashes l :=
  collapseLoopFuel_eq l.length l (Nat.le_refl _)

theorem removeChar_three_eq (l : List Char) :
    removeChar '\t' (removeChar '\n' (removeChar ' ' l)) = removeWTN l := by
  induction l with
  | nil => rfl
  | cons c rest ih =>
    by_cases h1 : c = ' ' <;> by_cases h2 : c = '\n' <;> by_cases h3 : c = '\t' <;>
      simp [removeChar, removeWTN, isWTN, List.filter_cons, h1, h2, h3] at * <;>
      exact ih

/-! ### Character-level lemmas about `Char.toLower` -/

theorem char_toNat_ofNat {n : Nat} (h : n < 55296) : (Char.ofNat n).toNat = n := by
  have hv : n.isValidChar := Or.inl h
  rw [Char.ofNat, dif_pos hv]
  rfl

theorem toLower_toNat_of_upper {c : Char} (h1 : 65 ≤ c.toNat) (h2 : c.toNat ≤ 90) :
    (Char.toLower c).toNat = c.toNat + 32 := by
  rw [Char.toLower, if_pos ⟨h1, h2⟩]
  exact char_toNat_ofNat (by omega)

theorem toLower_eq_self_of_not_upper {c : Char} (h : ¬(65 ≤ c.toNat ∧ c.toNat ≤ 90)) :
    Char.toLower c = c := by
  rw [Char.toLower, if_neg h]

theorem toLower_eq_dash_iff {c : Char} : Char.toLower c = '-' ↔ c = '-' := by
  constructor
  · intro h
    by_cases hu : 65 ≤ c.toNat ∧ c.toNat ≤ 90
    · exfalso
      have hn := toLower_toNat_of_upper hu.1 hu.2
      rw [h] at hn
      have h45 : Char.toNat '-' = 45 := rfl
      omega
    · rwa [toLower_eq_self_of_not_upper hu] at h
  · intro h; subst h; rfl

theorem isAlpha_not_WTN {c : Char} (h : c.isAlpha = true) : isWTN c = false := by
  have h1 : c ≠ ' ' := by rintro rfl; exact absurd h (by decide)
  have h2 : c ≠ '\n' := by rintro rfl; exact absurd h (by decide)
  have h3 : c ≠ '\t' := by rintro rfl; exact absurd h (by decide)
  simp [isWTN, h1, h2, h3]

theorem isAlpha_ne_dash {c : Char} (h : c.isAlpha = true) : c ≠ '-' := by
  rintro rfl; exact absurd h (by decide)

/-! ### Lemmas about `collapseDashes` and `pushDash` -/

theorem collapseDashes_cons (a : Char) (l : List Char) :
    ∃ t, collapseDashes (a :: l) = a :: t := by
  induction l generalizing a with
  | nil => exact ⟨[], rfl⟩
  | cons d rest ih =>
    by_cases hp : a = '-' ∧ d = '-'
    · obtain ⟨t, ht⟩ := ih d
      rw [collapseDashes, if_pos hp, ht]
      exact ⟨t, by rw [hp.1, hp.2]⟩
    · rw [collapseDashes, if_neg hp]
      exact ⟨collapseDashes (d :: rest), rfl⟩

theorem collapseDashes_cons_ne_dash {c : Char} (hc : c ≠ '-') (l : List Char) :
    collapseDashes (c :: l) = c :: collapseDashes l := by
  cases l with
  | nil => rfl
  | cons d rest => rw [collapseDashes, if_neg (fun hp => hc hp.1)]

theorem collapseDashes_cons_dash (l : List Char) :
    collapseDashes ('-' :: l) = pushDash (collapseDashes l) := by
  cases l with
  | nil => rfl
  | cons d rest =>
    by_cases hd : d = '-'
    · subst hd
      rw [collapseDashes, if_pos ⟨rfl, rfl⟩]
      obtain ⟨t, ht⟩ := collapseDashes_cons '-' rest
      rw [ht, pushDash, if_pos (by rw [List.head?_cons])]
    · rw [collapseDashes, if_neg (fun hp => hd hp.2)]
      obtain ⟨t, ht⟩ := collapseDashes_cons d rest
      rw [ht, pushDash, if_neg (by rw [List.head?_cons]; exact fun hs => hd (Option.some_inj.mp hs))]

theorem map_toLower_head_dash {a b : List Char}
    (h : a.map Char.toLower = b.map Char.toLower) (ha : a.head? = some '-') :
    b.head? = some '-' := by
  have hh := congrArg List.head? h
  rw [List.head?_map, List.head?_map, ha] at hh
  cases hb : b.head? with
  | none => rw [hb] at hh; simp at hh
  | some d =>
    rw [hb] at hh
    simp only [Option.map_some'] at hh
    have hd : Char.toLower d = '-' := ((Option.some_inj.mp hh).symm).trans rfl
    rw [toLower_eq_dash_iff.mp hd]

theorem map_toLower_pushDash {a b : List Char}
    (h : a.map Char.toLower = b.map Char.toLower) :
    (pushDash a).map Char.toLower = (pushDash b).map Char.toLower := by
  rw [pushDash, pushDash]
  by_cases ha : a.head? = some '-'
  · rw [if_pos ha, if_pos (map_toLower_head_dash h ha), h]
  · have hb : ¬ b.head? = some '-' := fun hb => ha (map_toLower_head_dash h.symm hb)
    rw [if_neg ha, if_neg hb, List.map_cons, List.map_cons, h]

/-! ### Lemmas about `removeWTN` -/

theorem removeWTN_cons_ws {c : Char} (h : isWTN c = true) (l : List Char) :
    removeWTN (c :: l) = removeWTN l := by
  simp [removeWTN, List.filter_cons, h]

theorem removeWTN_cons_keep {c : Char} (h : isWTN c = false) (l : List Char) :
    removeWTN (c :: l) = c :: removeWTN l := by
  simp [removeWTN, List.filter_cons, h]

theorem removeWTN_replicate_dash_append (k : Nat) (l : List Char) :
    removeWTN (List.replicate k '-' ++ l) = List.replicate k '-' ++ removeWTN l := by
  induction k with
  | zero => rfl
  | succ k ih =>
    rw [List.replicate_succ, List.cons_append, removeWTN_cons_keep (by decide), ih,
      List.cons_append]

theorem collapseDashes_replicate_dash {k : Nat} (hk : 0 < k) (l : List Char) :
    collapseDashes (List.replicate k '-' ++ l) = collapseDashes ('-' :: l) := by
  induction k with
  | zero => omega
  | succ k ih =>
    cases k with
    | zero => rfl
    | succ k' =>
      rw [List.replicate_succ, List.cons_append]
      rw [show List.replicate (k' + 1) '-' ++ l = '-' :: (List.replicate k' '-' ++ l) from by
        rw [List.replicate_succ, List.cons_append]]
      rw [collapseDashes, if_pos ⟨rfl, rfl⟩]
      rw [show '-' :: (List.replicate k' '-' ++ l) = List.replicate (k' + 1) '-' ++ l from by
        rw [List.replicate_succ, List.cons_append]]
      exact ih (by omega)

/-! ### Reformat invariance -/

theorem reformat_core {x y : List Char} (h : Reformat x y) :
    (collapseDashes (removeWTN x)).map Char.toLower
      = (collapseDashes (removeWTN y)).map Char.toLower := by
  induction h with
  | nil => rfl
  | keep c hr ih =>
    by_cases hw : isWTN c = true
    · rw [removeWTN_cons_ws hw, removeWTN_cons_ws hw]; exact ih
    · have hw' : isWTN c = false := by simpa using hw
      rw [removeWTN_cons_keep hw', removeWTN_cons_keep hw']
      by_cases hc : c = '-'
      · subst hc
        rw [collapseDashes_cons_dash, collapseDashes_cons_dash]
        exact map_toLower_pushDash ih
      · rw [collapseDashes_cons_ne_dash hc, collapseDashes_cons_ne_dash hc,
          List.map_cons, List.map_cons, ih]
  | caseChange c d hca hda hcd hr ih =>
    rw [removeWTN_cons_keep (isAlpha_not_WTN hca), removeWTN_cons_keep (isAlpha_not_WTN hda),
      collapseDashes_cons_ne_dash (isAlpha_ne_dash hca),
      collapseDashes_cons_ne_dash (isAlpha_ne_dash hda),
      List.map_cons, List.map_cons, ih, hcd]
  | wsDelete c hcw hr ih => rw [removeWTN_cons_ws hcw]; exact ih
  | wsInsert c hcw hr ih => rw [removeWTN_cons_ws hcw]; exact ih
  | dashRun k m hk hm hr ih =>
    rw [removeWTN_replicate_dash_append, removeWTN_replicate_dash_append,
      collapseDashes_replicate_dash hk, collapseDashes_replicate_dash hm,
      collapseDashes_cons_dash, collapseDashes_cons_dash]
    exact map_toLower_pushDash ih

theorem standardize_pem_some (l : List Char) :
    standardize_pem (some l) = pyStrip ((collapseDashes (removeWTN l)).map Char.toLower) := by
  show pyStrip _ = _
  rw [removeChar_three_eq, collapseLoop_eq]

/-! ### Lemmas about the argument checks -/

theorem checkArgs_cases (p : Params) :
    checkArgs p = none ∨ ∃ m, checkArgs p = some (Outcome.failJson m []) := by
  rw [checkArgs]
  split
  · split
    · exact Or.inr ⟨_, rfl⟩
    · split
      · exact Or.inr ⟨_, rfl⟩
      · split
        · exact Or.inr ⟨_, rfl⟩
        · split
          · exact Or.inr ⟨_, rfl⟩
          · exact Or.inl rfl
  · split
    · exact Or.inr ⟨_, rfl⟩
    · exact Or.inl rfl

theorem checkArgs_none_present {p : Params} (hst : p.state = ModuleState.present)
    (hne : checkArgs p = none) :
    truthy p.certificate = true ∧ truthy p.certificate_arn = false ∧
    truthy p.name_tag = true ∧ truthy p.private_key = true := by
  rw [checkArgs, hst] at hne
  split at hne
  · split at hne
    · exact absurd hne (by simp)
    · split at hne
      · exact absurd hne (by simp)
      · split at hne
        · exact absurd hne (by simp)
        · split at hne
          · exact absurd hne (by simp)
          · rename_i h1 h2 h3 h4
            exact ⟨by simpa using h1, by simpa using h2, by simpa using h3, by simpa using h4⟩
  · rename_i heq
    simp at heq

theorem checkArgs_none_absent {p : Params} (hst : p.state = ModuleState.absent)
    (hne : checkArgs p = none) : absent_selector_count p = 1 := by
  rw [checkArgs, hst] at hne
  split at hne
  · rename_i heq
    simp at heq
  · split at hne
    · exact absurd hne (by simp)
    · rename_i hcond
      exact not_ne_iff.mp hcond

/-- Shared unfolding of the `state=present`, single-matched-record path, with
a well-formed record. -/
theorem aws_acm_main_present_one (p : Params) (cm : Bool) (r : Remote) (old : CertRecord)
    (t : List (List Char × List Char)) (nv old_body : List Char)
    (hst : p.state = ModuleState.present)
    (hc : truthy p.certificate = true) (ha : truthy p.certificate_arn = false)
    (hn : truthy p.name_tag = true) (hk : truthy p.private_key = true)
    (hcerts : r.certificates = [old])
    (htags : old.tags = some t)
    (hlook : tagLookup nameKey t = some nv)
    (hname : p.name_tag = some nv)
    (hbody : old.certificate = some old_body) :
    aws_acm_main p cm r =
      if pem_compare (some old_body) p.certificate &&
         (if truthy p.certificate_chain then
            pem_compare (some old.certificate_chain) p.certificate_chain
          else
            pem_compare (some old.certificate_chain) p.certificate) then
        (Outcome.exitPresent (r.domainOf old.certificate_arn) old.certificate_arn false,
         [ACMCall.getCertificates p.domain_name p.certificate_arn (mkTags p),
          ACMCall.getDomainOfCert old.certificate_arn])
      else
        (Outcome.exitPresent (r.domainOf (r.importArn (some old.certificate_arn)))
           (r.importArn (some old.certificate_arn)) true,
         [ACMCall.getCertificates p.domain_name p.certificate_arn (mkTags p),
          ACMCall.importCertificate p.certificate p.private_key p.certificate_chain
            (some old.certificate_arn) (mkTags p),
          ACMCall.getDomainOfCert (r.importArn (some old.certificate_arn))]) := by
  have hne : checkArgs p = none := by
    rw [checkArgs, hst]
    simp [hc, ha, hn, hk]
  obtain ⟨certs, dom, imp⟩ := r
  replace hcerts : certs = [old] := hcerts
  subst hcerts
  simp [aws_acm_main, hne, hst, htags, hlook, hname, hbody]

/-! ### Claim theorems -/

/-- C1: for `state=present`, when the matcher returns more than one record the
invocation fails with `fail_json`, reporting all matched records, and issues
no mutating call to the remote store. -/
theorem c1_ambiguity_fails (p : Params) (cm : Bool) (r : Remote)
    (hst : p.state = ModuleState.present)
    (hc : truthy p.certificate = true) (ha : truthy p.certificate_arn = false)
    (hn : truthy p.name_tag = true) (hk : truthy p.private_key = true)
    (hlen : 1 < r.certificates.length) :
    (∃ m, (aws_acm_main p cm r).1 = Outcome.failJson m r.certificates) ∧
    ∀ call ∈ (aws_acm_main p cm r).2, isMutating call = false := by
  have hne : checkArgs p = none := by
    rw [checkArgs, hst]
    simp [hc, ha, hn, hk]
  obtain ⟨certs, dom, imp⟩ := r
  replace hlen : 1 < certs.length := hlen
  rcases certs with _ | ⟨d1, _ | ⟨d2, rest⟩⟩
  · simp at hlen
  · simp at hlen
  · constructor
    · exact ⟨"More than one certificate with this Name tag exists in ACM in this region",
        by simp [aws_acm_main, hne, hst]⟩
    · intro call hcall
      simp [aws_acm_main, hne, hst] at hcall
      simp [hcall, isMutating]

/-- Witness for C1 at a concrete input: two matched records. -/
theorem c1_ambiguity_fails_witness :
    (∃ m, (aws_acm_main samplePresentParams true sampleRemote2).1 =
      Outcome.failJson m sampleRemote2.certificates) ∧
    ∀ call ∈ (aws_acm_main samplePresentParams true sampleRemote2).2,
      isMutating call = false :=
  c1_ambiguity_fails samplePresentParams true sampleRemote2 rfl (by decide) (by decide)
    (by decide) (by decide) (by decide)

/-- C2: for `state=present` with exactly one well-formed matched record, the
decision between no-op and overwrite is exactly the certificate-body
comparison conjoined with the spec's effective chain comparison: against the
supplied `certificate_chain` when that parameter is truthy, and against the
desired `certificate` body itself otherwise -- never against an empty chain. -/
theorem c2_effective_chain (p : Params) (cm : Bool) (r : Remote) (old : CertRecord)
    (t : List (List Char × List Char)) (nv old_body : List Char)
    (hst : p.state = ModuleState.present)
    (hc : truthy p.certificate = true) (ha : truthy p.certificate_arn = false)
    (hn : truthy p.name_tag = true) (hk : truthy p.private_key = true)
    (hcerts : r.certificates = [old])
    (htags : old.tags = some t)
    (hlook : tagLookup nameKey t = some nv)
    (hname : p.name_tag = some nv)
    (hbody : old.certificate = some old_body) :
    (aws_acm_main p cm r).1 =
      if pem_compare (some old_body) p.certificate &&
         spec_effective_chain_compare old.certificate_chain p then
        Outcome.exitPresent (r.domainOf old.certificate_arn) old.certificate_arn false
      else
        Outcome.exitPresent (r.domainOf (r.importArn (some old.certificate_arn)))
          (r.importArn (some old.certificate_arn)) true := by
  rw [aws_acm_main_present_one p cm r old t nv old_body hst hc ha hn hk hcerts htags hlook
    hname hbody]
  rw [apply_ite Prod.fst]
  rfl

/-- Witness for C2 at a concrete input (no chain supplied, identical record). -/
theorem c2_effective_chain_witness :
    (aws_acm_main samplePresentParams true sampleRemote).1 =
      if pem_compare (some ['x']) samplePresentParams.certificate &&
         spec_effective_chain_compare sampleOld.certificate_chain samplePresentParams then
        Outcome.exitPresent (sampleRemote.domainOf sampleOld.certificate_arn)
          sampleOld.certificate_arn false
      else
        Outcome.exitPresent
          (sampleRemote.domainOf (sampleRemote.importArn (some sampleOld.certificate_arn)))
          (sampleRemote.importArn (some sampleOld.certificate_arn)) true :=
  c2_effective_chain samplePresentParams true sampleRemote sampleOld sampleTags ['n'] ['x']
    rfl (by decide) (by decide) (by decide) (by decide) rfl rfl (by decide) rfl rfl

/-- C3: for `state=present` with exactly one well-formed matched record that
is PEM-equal to the desired state (body, and effective chain in the sense of
the spec), the invocation exits with `changed=false`, the existing record's
ARN and its resolved domain name, and issues no mutating call. -/
theorem c3_noop_exit (p : Params) (cm : Bool) (r : Remote) (old : CertRecord)
    (t : List (List Char × List Char)) (nv old_body : List Char)
    (hst : p.state = ModuleState.present)
    (hc : truthy p.certificate = true) (ha : truthy p.certificate_arn = false)
    (hn : truthy p.name_tag = true) (hk : truthy p.private_key = true)
    (hcerts : r.certificates = [old])
    (htags : old.tags = some t)
    (hlook : tagLookup nameKey t = some nv)
    (hname : p.name_tag = some nv)
    (hbody : old.certificate = some old_body)
    (hsame_body : pem_compare (some old_body) p.certificate = true)
    (hsame_chain : spec_effective_chain_compare old.certificate_chain p = true) :
    aws_acm_main p cm r =
      (Outcome.exitPresent (r.domainOf old.certificate_arn) old.certificate_arn false,
       [ACMCall.getCertificates p.domain_name p.certificate_arn (mkTags p),
        ACMCall.getDomainOfCert old.certificate_arn]) ∧
    ∀ call ∈ (aws_acm_main p cm r).2, isMutating call = false := by
  rw [spec_effective_chain_compare] at hsame_chain
  have hcond : (pem_compare (some old_body) p.certificate &&
      (if truthy p.certificate_chain then
        pem_compare (some old.certificate_chain) p.certificate_chain
      else
        pem_compare (some old.certificate_chain) p.certificate)) = true := by
    rw [hsame_body, hsame_chain]
    rfl
  have hmain := aws_acm_main_present_one p cm r old t nv old_body hst hc ha hn hk hcerts htags
    hlook hname hbody
  rw [hmain, if_pos hcond]
  refine ⟨rfl, ?_⟩
  intro call hcall
  simp only [List.mem_cons, List.not_mem_nil, or_false] at hcall
  rcases hcall with rfl | rfl
  · rfl
  · rfl

/-- Witness for C3 at a concrete input. -/
theorem c3_noop_exit_witness :
    aws_acm_main samplePresentParams true sampleRemote =
      (Outcome.exitPresent (sampleRemote.domainOf sampleOld.certificate_arn)
        sampleOld.certificate_arn false,
       [ACMCall.getCertificates samplePresentParams.domain_name
          samplePresentParams.certificate_arn (mkTags samplePresentParams),
        ACMCall.getDomainOfCert sampleOld.certificate_arn]) ∧
    ∀ call ∈ (aws_acm_main samplePresentParams true sampleRemote).2, isMutating call = false :=
  c3_noop_exit samplePresentParams true sampleRemote sampleOld sampleTags ['n'] ['x']
    rfl (by decide) (by decide) (by decide) (by decide) rfl rfl (by decide) rfl rfl
    (by decide) (by decide)

/-- C4: for `state=absent` (with a valid selector), every matched record is
deleted, `changed` equals whether the matched set was nonempty, and the
returned `arns` are exactly the matched records' ARNs; in particular zero
matches yield `changed=false`, no ARNs and no delete call. -/
theorem c4_absent_deletes_all (p : Params) (cm : Bool) (r : Remote)
    (hst : p.state = ModuleState.absent)
    (hcount : absent_selector_count p = 1) :
    aws_acm_main p cm r =
      (Outcome.exitAbsent (r.certificates.map (fun c => c.certificate_arn))
        (decide (0 < r.certificates.length)),
       ACMCall.getCertificates p.domain_name p.certificate_arn (mkTags p)
         :: r.certificates.map (fun c => ACMCall.deleteCertificate c.certificate_arn)) := by
  have hne : checkArgs p = none := by
    rw [checkArgs, hst]
    simp [hcount]
  simp [aws_acm_main, hne, hst]

/-- Witness for C4 at a concrete input: one matched record is deleted. -/
theorem c4_absent_deletes_all_witness :
    aws_acm_main sampleAbsentParams true sampleRemote =
      (Outcome.exitAbsent [['a']] true,
       [ACMCall.getCertificates none none (some [(nameKey, ['n'])]),
        ACMCall.deleteCertificate ['a']]) := by
  rw [c4_absent_deletes_all sampleAbsentParams true sampleRemote rfl (by decide)]
  decide

/-- C5: invalid parameter combinations -- for `state=absent`, zero or several
of the three selectors being set; for `state=present`, a falsy `certificate`,
`name_tag` or `private_key`, or a truthy `certificate_arn` -- are rejected by
`fail_json` before any call to the remote store. -/
theorem c5_validation_rejects (p : Params) (cm : Bool) (r : Remote)
    (h : (p.state = ModuleState.absent ∧ absent_selector_count p ≠ 1) ∨
         (p.state = ModuleState.present ∧
           (truthy p.certificate = false ∨ truthy p.certificate_arn = true ∨
            truthy p.name_tag = false ∨ truthy p.private_key = false))) :
    (∃ m, (aws_acm_main p cm r).1 = Outcome.failJson m []) ∧
    (aws_acm_main p cm r).2 = [] := by
  have hsome : ∃ m, checkArgs p = some (Outcome.failJson m []) := by
    rcases checkArgs_cases p with hnone | hsome
    · exfalso
      rcases h with ⟨hst, hcount⟩ | ⟨hst, hbad⟩
      · exact hcount (checkArgs_none_absent hst hnone)
      · obtain ⟨g1, g2, g3, g4⟩ := checkArgs_none_present hst hnone
        rcases hbad with hb | hb | hb | hb
        · simp [g1] at hb
        · simp [g2] at hb
        · simp [g3] at hb
        · simp [g4] at hb
    · exact hsome
  obtain ⟨m, hm⟩ := hsome
  constructor
  · exact ⟨m, by simp [aws_acm_main, hm]⟩
  · simp [aws_acm_main, hm]

/-- Witness for C5 at a concrete input: `state=absent` with no selector. -/
theorem c5_validation_rejects_witness :
    (∃ m, (aws_acm_main sampleNoSelectorParams true sampleEmptyRemote).1 =
      Outcome.failJson m []) ∧
    (aws_acm_main sampleNoSelectorParams true sampleEmptyRemote).2 = [] :=
  c5_validation_rejects sampleNoSelectorParams true sampleEmptyRemote
    (Or.inl ⟨rfl, by decide⟩)

/-- C8: for `state=present` with exactly one matched record that lacks tags,
lacks a `Name` tag, carries a different `Name` tag value, or lacks a
certificate body, the invocation fails with an internal error reporting that
record, after only the read call to the matcher and before any comparison,
domain resolution or mutating call. -/
theorem c8_internal_error (p : Params) (cm : Bool) (r : Remote) (old : CertRecord)
    (hst : p.state = ModuleState.present)
    (hc : truthy p.certificate = true) (ha : truthy p.certificate_arn = false)
    (hn : truthy p.name_tag = true) (hk : truthy p.private_key = true)
    (hcerts : r.certificates = [old])
    (hbad : old.tags = none
      ∨ (∃ t, old.tags = some t ∧ tagLookup nameKey t = none)
      ∨ (∃ t nv, old.tags = some t ∧ tagLookup nameKey t = some nv ∧ ¬ some nv = p.name_tag)
      ∨ old.certificate = none) :
    (∃ m, (aws_acm_main p cm r).1 = Outcome.failJson m [old]) ∧
    (aws_acm_main p cm r).2 =
      [ACMCall.getCertificates p.domain_name p.certificate_arn (mkTags p)] := by
  have hne : checkArgs p = none := by
    rw [checkArgs, hst]
    simp [hc, ha, hn, hk]
  obtain ⟨certs, dom, imp⟩ := r
  replace hcerts : certs = [old] := hcerts
  subst hcerts
  rcases hbad with hb | ⟨t, ht, hl⟩ | ⟨t, nv, ht, hl, hnv⟩ | hb
  · refine ⟨⟨"Internal error, unsure which certificate to update", ?_⟩, ?_⟩ <;> simp [aws_acm_main, hne, hst, hb]
  · refine ⟨⟨"Internal error, unsure which certificate to update", ?_⟩, ?_⟩ <;> simp [aws_acm_main, hne, hst, ht, hl]
  · refine ⟨⟨"Internal error, unsure which certificate to update", ?_⟩, ?_⟩ <;> simp [aws_acm_main, hne, hst, ht, hl, hnv]
  · cases htag : old.tags with
    | none => refine ⟨⟨"Internal error, unsure which certificate to update", ?_⟩, ?_⟩ <;> simp [aws_acm_main, hne, hst, htag]
    | some t =>
      cases hl : tagLookup nameKey t with
      | none => refine ⟨⟨"Internal error, unsure which certificate to update", ?_⟩, ?_⟩ <;> simp [aws_acm_main, hne, hst, htag, hl]
      | some nv =>
        by_cases hnv : some nv = p.name_tag
        · refine ⟨⟨"Internal error, unsure what the existing cert in ACM is", ?_⟩, ?_⟩ <;>
            simp [aws_acm_main, hne, hst, htag, hl, hnv.symm, hb]
        · refine ⟨⟨"Internal error, unsure which certificate to update", ?_⟩, ?_⟩ <;> simp [aws_acm_main, hne, hst, htag, hl, hnv]

/-- Witness for C8 at a concrete input: the matched record has no tags map. -/
theorem c8_internal_error_witness :
    (∃ m, (aws_acm_main samplePresentParams true sampleBadRemote).1 =
      Outcome.failJson m [sampleBadOld]) ∧
    (aws_acm_main samplePresentParams true sampleBadRemote).2 =
      [ACMCall.getCertificates samplePresentParams.domain_name
        samplePresentParams.certificate_arn (mkTags samplePresentParams)] :=
  c8_internal_error samplePresentParams true sampleBadRemote sampleBadOld rfl (by decide)
    (by decide) (by decide) (by decide) rfl (Or.inl rfl)

/-- C6 (counterexample): `standardize_pem` does not only remove space, tab
and newline, collapse dash runs and lower-case -- it finally strips leading
and trailing Python whitespace, so a lone carriage return is removed although
the claimed normal form keeps it. -/
theorem c6_normalize_counterexample :
    ¬ standardize_pem (some ['\r']) = claimed_normal_form ['\r'] := by decide

/-- C6 (amended): for every input string (and for null input, which yields
the empty string), `standardize_pem` terminates and returns the input with
all space, tab and newline characters removed, every maximal run of two or
more consecutive dashes replaced by a single dash, all letters lower-cased,
and finally leading and trailing Python whitespace stripped. -/
theorem c6_normalize_amended (p : Option (List Char)) :
    standardize_pem p = pyStrip (claimed_normal_form (p.getD [])) := by
  cases p with
  | none => rfl
  | some l => rw [standardize_pem_some]; rfl

/-- C7: for any string `x` and any reformatting `y` of `x` that only alters
whitespace, letter case, or the length of dash runs and never the payload
characters, `pem_compare x y` is true (in particular for any valid PEM body
`x`). -/
theorem c7_reformat_invariant {x y : List Char} (h : Reformat x y) :
    pem_compare (some x) (some y) = true := by
  simp only [pem_compare, decide_eq_true_eq]
  rw [standardize_pem_some, standardize_pem_some]
  exact congrArg pyStrip (reformat_core h)

/-- Witness for C7 at a concrete reformatting: inserted blank, case change,
shortened dash run. -/
theorem c7_reformat_invariant_witness :
    pem_compare (some ['A', '-', '-']) (some [' ', 'a', '-']) = true :=
  c7_reformat_invariant
    (Reformat.wsInsert ' ' (by decide)
      (Reformat.caseChange 'A' 'a' (by decide) (by decide) (by decide)
        (Reformat.dashRun 2 1 (by decide) (by decide) Reformat.nil)))

/-- C9: the module declares `supports_check_mode=True`, yet for every input
the outcome and the calls issued are identical whatever the check-mode flag:
no branch of `main` consults it. -/
theorem c9_check_mode_ignored (p : Params) (r : Remote) (cm1 cm2 : Bool) :
    supports_check_mode = true ∧ aws_acm_main p cm1 r = aws_acm_main p cm2 r :=
  ⟨rfl, rfl⟩

/-- C10: for `state=absent` with `name_tag` set to the empty string and no
other selector, the exactly-one-selector validation accepts the request (it
counts non-`None` parameters), yet the tag filter handed to the matcher is
`None` (built only when `name_tag` is truthy), so the invocation proceeds
with no selector filter at all. -/
theorem c10_empty_name_tag_no_filter (cm : Bool) (r : Remote) :
    aws_acm_main emptyNameTagParams cm r =
      (Outcome.exitAbsent (r.certificates.map (fun c => c.certificate_arn))
        (decide (0 < r.certificates.length)),
       ACMCall.getCertificates none none none
         :: r.certificates.map (fun c => ACMCall.deleteCertificate c.certificate_arn)) := by
  have hne : checkArgs emptyNameTagParams = none := by decide
  simp only [aws_acm_main, hne]
  simp [emptyNameTagParams, mkTags, truthy]

end AwsAcm
